import Mathlib

/-!
Verification of the Discussion-Den forum core (identity resolution, vote
ledger, save ledger, comment tree, authorship/ownership checks) against a
shallow embedding of the repository's Python source.

Source files embedded:
  * `models.py` — the record shapes (`Post`, `Comment`, `Vote`, `SavedPost`,
    `Persona`) and their schema constraints;
  * `routes/utils.py` — `IdentityContext`, `get_active_persona`;
  * `routes/api.py` — the `vote`, `save` and `add_comment_api` endpoints;
  * `routes/post.py` — the ownership checks of `edit_post_post` and
    `delete_comment`, and the author-field construction of `create_post_post`.

Databases are modelled as lists of rows; nullable foreign-key columns are
`Option Nat`; SQLAlchemy `query.get` / `filter_by(...).first()` become
`List.find?`; `delete()` on a query becomes `List.filter`; the two separate
`db.session.commit()` calls of the `vote` endpoint are kept as two explicit
state-transformation stages so that the intermediate committed state is a
first-class value.
-/

/-- Row of the `personas` table (`models.py`, class `Persona`): primary key
`id`, owner foreign key `user_id`, display `name`. -/
structure Persona where
  id : Nat
  user_id : Nat
  name : String
deriving DecidableEq

/-- Embedding of `routes/utils.py` `IdentityContext`: a frozen dataclass
holding the active persona (or none).  The Python property `user_id` reads
the ambient `current_user`; here the current account id is carried as a
field. -/
structure IdentityContext where
  current_user_id : Nat
  active_persona : Option Persona
deriving DecidableEq

/-- `IdentityContext.is_persona`: `self.active_persona is not None`. -/
def IdentityContext.isPersona (i : IdentityContext) : Bool :=
  i.active_persona.isSome

/-- `IdentityContext.persona_id`: `self.active_persona.id if self.active_persona else None`. -/
def IdentityContext.personaId (i : IdentityContext) : Option Nat :=
  i.active_persona.map Persona.id

/-- `IdentityContext.user_id`: `int(current_user.id)`. -/
def IdentityContext.userId (i : IdentityContext) : Nat :=
  i.current_user_id

/-- Embedding of `routes/utils.py` `get_active_persona`.  Inputs: the
`personas` table, the authenticated account id, and the session value
`session.get("active_persona_id")`.  Output: the resolved persona (or none)
together with the session value after the call (the function assigns
`session["active_persona_id"] = None` when the stored selection is stale).
The Python guard `if not persona_id` is falsy for both `None` and `0`,
which the `n == 0` test mirrors. -/
def get_active_persona (personas : List Persona) (current_user_id : Nat)
    (session_pid : Option Nat) : Option Persona × Option Nat :=
  match session_pid with
  | none => (none, session_pid)
  | some n =>
    if n == 0 then
      (none, session_pid)
    else
      match personas.find? (fun p => p.id == n) with
      | none => (none, none)
      | some p =>
        if p.user_id == current_user_id then (some p, session_pid)
        else (none, none)

/-- Embedding of `routes/utils.py` `get_identity`: wraps the resolved
persona in an `IdentityContext`, also returning the post-call session
value. -/
def resolveIdentity (personas : List Persona) (current_user_id : Nat)
    (session_pid : Option Nat) : IdentityContext × Option Nat :=
  let r := get_active_persona personas current_user_id session_pid
  (⟨current_user_id, r.1⟩, r.2)

/-- C4: a session-selected persona id that does not resolve to a persona
owned by the authenticated account is cleared (session value set to `none`)
and the identity falls back to the account: `isPersona` is `false` and
`personaId` is `none`.  The hypothesis covers both failure modes of the
claim: the persona id does not exist in the table, or its owner differs
from the authenticated account.  (`n ≠ 0` excludes the sentinel value `0`,
which `persona_switch` in `routes/api.py` normalises to `None` before it is
ever stored, and which `get_active_persona` already treats as "no
selection".) -/
theorem stale_persona_selection_cleared (personas : List Persona)
    (uid n : Nat) (hn : n ≠ 0)
    (hstale : ∀ p ∈ personas, p.id = n → p.user_id ≠ uid) :
    resolveIdentity personas uid (some n) =
      (⟨uid, none⟩, none) ∧
    (resolveIdentity personas uid (some n)).1.isPersona = false ∧
    (resolveIdentity personas uid (some n)).1.personaId = none := by
  have hmain : get_active_persona personas uid (some n) = (none, none) := by
    unfold get_active_persona
    simp only [beq_iff_eq, hn, if_false]
    cases hfind : personas.find? (fun p => p.id == n) with
    | none => rfl
    | some p =>
      have hp : p ∈ personas := List.mem_of_find?_eq_some hfind
      have hpid := List.find?_some hfind
      have howner : p.user_id ≠ uid := hstale p hp (by simpa using hpid)
      simp [howner]
  have h1 : resolveIdentity personas uid (some n) = (⟨uid, none⟩, none) := by
    simp [resolveIdentity, hmain]
  exact ⟨h1, by rw [h1]; rfl, by rw [h1]; rfl⟩

/-- Witness for `stale_persona_selection_cleared`: persona 5 is owned by
account 2; account 1 has persona 5 selected in its session; resolution
falls back to account 1 and clears the selection. -/
theorem stale_persona_selection_cleared_witness :
    resolveIdentity [⟨5, 2, "alt"⟩] 1 (some 5) = (⟨1, none⟩, none) := by
  exact (stale_persona_selection_cleared [⟨5, 2, "alt"⟩] 1 5 (by decide)
    (by intro p hp hid; simp at hp; subst hp; decide)).1

/-- Row of the `posts` table (`models.py`, class `Post`): content fields,
denormalized `upvotes`/`downvotes` counters (SQL `Integer`, hence `Int`),
and the mutually exclusive author foreign keys. -/
structure Post where
  id : Nat
  title : String
  body : String
  image_url : Option String
  community_id : Nat
  upvotes : Int
  downvotes : Int
  author_user_id : Option Nat
  author_persona_id : Option Nat
deriving DecidableEq

/-- Row of the `comments` table (`models.py`, class `Comment`). -/
structure Comment where
  id : Nat
  body : String
  post_id : Nat
  author_user_id : Option Nat
  author_persona_id : Option Nat
  parent_comment_id : Option Nat
deriving DecidableEq

/-- Row of the `votes` table (`models.py`, class `Vote`). -/
structure Vote where
  post_id : Nat
  voted_by_user_id : Option Nat
  voted_by_persona_id : Option Nat
  value : Int
deriving DecidableEq

/-- Row of the `saved_posts` table (`models.py`, class `SavedPost`). -/
structure SavedPost where
  post_id : Nat
  saved_by_user_id : Option Nat
  saved_by_persona_id : Option Nat
deriving DecidableEq

/-- The mutable store the endpoints act on: one list per table. -/
structure DB where
  posts : List Post
  comments : List Comment
  votes : List Vote
  saved_posts : List SavedPost
deriving DecidableEq

/-- Python `str.strip()`: drop leading and trailing whitespace.  Defined
by structural recursion over the character list so that concrete calls
evaluate inside the kernel. -/
def pyStrip (s : String) : String :=
  ⟨((s.data.dropWhile Char.isWhitespace).reverse.dropWhile Char.isWhitespace).reverse⟩

/-- Digit-run parse used by `pyInt`: all characters must be decimal
digits and at least one must be present, as Python's `int(str)` demands. -/
def pyDigits : List Char → Option Nat
  | [] => none
  | cs =>
    if cs.all Char.isDigit then
      some (cs.foldl (fun n c => n * 10 + (c.toNat - 48)) 0)
    else none

/-- Python `int(str)`: surrounding whitespace is ignored, an optional
sign precedes a non-empty digit run, anything else raises `ValueError`
(modelled as `none`). -/
def pyInt (s : String) : Option Int :=
  match (pyStrip s).data with
  | '-' :: rest => (pyDigits rest).map (fun n => -(n : Int))
  | '+' :: rest => (pyDigits rest).map (fun n => (n : Int))
  | rest => (pyDigits rest).map (fun n => (n : Int))

/-- The `... if not ident.is_persona else None` author-field pattern shared
by every record construction in `routes/post.py` and `routes/api.py`. -/
def authorUserField (ident : IdentityContext) : Option Nat :=
  if ident.isPersona then none else some ident.userId

/-- The `... if ident.is_persona else None` counterpart for the persona
foreign key. -/
def authorPersonaField (ident : IdentityContext) : Option Nat :=
  if ident.isPersona then ident.personaId else none

/-- The `Vote(...)` construction at `routes/api.py` lines 361-366. -/
def mkVote (ident : IdentityContext) (pid : Nat) (value : Int) : Vote :=
  { post_id := pid
    voted_by_user_id := authorUserField ident
    voted_by_persona_id := authorPersonaField ident
    value := value }

/-- The `SavedPost(...)` construction at `routes/api.py` lines 417-421. -/
def mkSavedPost (ident : IdentityContext) (pid : Nat) : SavedPost :=
  { post_id := pid
    saved_by_user_id := authorUserField ident
    saved_by_persona_id := authorPersonaField ident }

/-- The `Comment(...)` construction at `routes/api.py` lines 467-473
(identical author-field pattern at `routes/post.py` lines 170-176);
`cid` stands for the primary key the storage layer assigns. -/
def mkComment (ident : IdentityContext) (cid pid : Nat) (body : String)
    (pf : Option Nat) : Comment :=
  { id := cid
    body := body
    post_id := pid
    author_user_id := authorUserField ident
    author_persona_id := authorPersonaField ident
    parent_comment_id := pf }

/-- The `Post(...)` construction at `routes/post.py` lines 113-120; the
counters start at the column default `0`. -/
def mkPost (ident : IdentityContext) (pid community_id : Nat)
    (title body : String) (image : Option String) : Post :=
  { id := pid
    title := pyStrip title
    body := pyStrip body
    image_url := image
    community_id := community_id
    upvotes := 0
    downvotes := 0
    author_user_id := authorUserField ident
    author_persona_id := authorPersonaField ident }

/-- The `filter_by` key used by the `vote` endpoint to look up and delete
the acting identity's vote rows on a post: `post_id=post_id` together with
`voted_by_persona_id=ident.persona_id` when acting as a persona, else
`voted_by_user_id=ident.user_id`. -/
def voteMatches (ident : IdentityContext) (pid : Nat) (r : Vote) : Bool :=
  if ident.isPersona then
    r.post_id == pid && r.voted_by_persona_id == ident.personaId
  else
    r.post_id == pid && r.voted_by_user_id == some ident.userId

/-- The corresponding `filter_by` key of the `save` endpoint on
`saved_posts`. -/
def savedMatches (ident : IdentityContext) (pid : Nat) (r : SavedPost) : Bool :=
  if ident.isPersona then
    r.post_id == pid && r.saved_by_persona_id == ident.personaId
  else
    r.post_id == pid && r.saved_by_user_id == some ident.userId

/-- Raw JSON value found under the `"vote"` key of the request body:
an integer, a string, JSON `null`, or a missing key (Python
`data.get("vote", 0)` then yields the default `0`). -/
inductive VoteField
  | int (n : Int)
  | str (s : String)
  | null
  | absent
deriving DecidableEq

/-- `int(data.get("vote", 0))` with `except (ValueError, TypeError): value = 0`
(`routes/api.py` lines 327-330).  An unparsable string raises
`ValueError` and a `None` raises `TypeError`, both coerced to `0`. -/
def pyParseVote : VoteField → Int
  | .int n => n
  | .str s =>
    match pyInt s with
    | some n => n
    | none => 0
  | .null => 0
  | .absent => 0

/-- HTTP-level result of an endpoint: a JSON success payload, a 400 with an
error message, or a 404 from `get_or_404`. -/
inductive ApiOutcome (α : Type)
  | ok (a : α)
  | badRequest (msg : String)
  | notFound
deriving DecidableEq

/-- The success payload of the `vote` endpoint (`routes/api.py` lines
389-397). -/
structure VoteResponse where
  upvotes : Int
  downvotes : Int
  vote : Int
  score : Int
deriving DecidableEq

/-- `old_value = old_vote.value if old_vote else 0` where `old_vote` is the
first row matching the identity's filter key (`routes/api.py` lines
337-347). -/
def oldVoteValue (db : DB) (pid : Nat) (ident : IdentityContext) : Int :=
  match db.votes.find? (voteMatches ident pid) with
  | some v => v.value
  | none => 0

/-- State persisted by the FIRST `db.session.commit()` of the `vote`
endpoint (`routes/api.py` lines 349-370): all vote rows matching the
identity's filter key are deleted, then a fresh row is inserted when the
new value is nonzero. -/
def voteCommit1 (db : DB) (pid : Nat) (ident : IdentityContext)
    (value : Int) : DB :=
  { db with votes :=
      db.votes.filter (fun r => !(voteMatches ident pid r)) ++
        (if value != 0 then [mkVote ident pid value] else []) }

/-- Counter bookkeeping of `routes/api.py` lines 375-385: undo the old
value's contribution (clamped at zero) and apply the new one. -/
def adjustCounters (old_value value : Int) (p : Post) : Post :=
  let p1 :=
    if old_value == 1 then { p with upvotes := max 0 (p.upvotes - 1) }
    else if old_value == -1 then { p with downvotes := max 0 (p.downvotes - 1) }
    else p
  if value == 1 then { p1 with upvotes := p1.upvotes + 1 }
  else if value == -1 then { p1 with downvotes := p1.downvotes + 1 }
  else p1

/-- State persisted by the SECOND `db.session.commit()` of the `vote`
endpoint (`routes/api.py` lines 372-387): only the fetched post's counters
change. -/
def voteCommit2 (db : DB) (pid : Nat) (old_value value : Int) : DB :=
  { db with posts := db.posts.map (fun p =>
      if p.id == pid then adjustCounters old_value value p else p) }

/-- The durable state right after the first commit of the `vote` endpoint:
this is what survives if the process fails before the second commit.
Validation and the `get_or_404` lookup precede the first commit, so a
rejected request leaves the store untouched. -/
def voteIntermediate (db : DB) (pid : Nat) (ident : IdentityContext)
    (field : VoteField) : DB :=
  let value := pyParseVote field
  if value != -1 && value != 0 && value != 1 then db
  else
    match db.posts.find? (fun p => p.id == pid) with
    | none => db
    | some _ => voteCommit1 db pid ident value

/-- Embedding of the `vote` endpoint (`routes/api.py` lines 322-397):
parse/validate the value, `get_or_404` the post, read the prior vote,
commit the vote-row mutation, then commit the counter adjustment, and
answer with the post's new counters, the caller's resulting value and the
score.  The response reads the counters off the same ORM object that was
fetched, i.e. the first stored post with the requested id, after the
adjustment. -/
def vote (db : DB) (pid : Nat) (ident : IdentityContext)
    (field : VoteField) : ApiOutcome VoteResponse × DB :=
  let value := pyParseVote field
  if value != -1 && value != 0 && value != 1 then
    (.badRequest "Invalid vote value.", db)
  else
    match db.posts.find? (fun p => p.id == pid) with
    | none => (.notFound, db)
    | some post0 =>
      let old_value := oldVoteValue db pid ident
      let db2 := voteCommit2 (voteCommit1 db pid ident value) pid old_value value
      let post1 := adjustCounters old_value value post0
      (.ok ⟨post1.upvotes, post1.downvotes, value, post1.upvotes - post1.downvotes⟩, db2)

/-- Drop the first element satisfying `p`, keep the rest; this is
`db.session.delete(existing)` for the first row a `filter_by(...).first()`
lookup returned. -/
def removeFirst (p : α → Bool) : List α → List α
  | [] => []
  | x :: xs => if p x then xs else x :: removeFirst p xs

/-- Embedding of the `save` endpoint (`routes/api.py` lines 400-430):
`get_or_404` the post, look up the identity's existing `SavedPost` row;
saving inserts one only when absent, unsaving deletes the found row; the
response carries the resulting boolean state. -/
def save (db : DB) (pid : Nat) (ident : IdentityContext)
    (save_value : Bool) : ApiOutcome Bool × DB :=
  match db.posts.find? (fun p => p.id == pid) with
  | none => (.notFound, db)
  | some _ =>
    let existing := db.saved_posts.find? (savedMatches ident pid)
    if save_value then
      match existing with
      | none =>
        (.ok true, { db with saved_posts := db.saved_posts ++ [mkSavedPost ident pid] })
      | some _ => (.ok true, db)
    else
      (.ok false, { db with saved_posts := removeFirst (savedMatches ident pid) db.saved_posts })

/-- Primary key the storage layer assigns to a freshly inserted comment:
one past the largest existing id. -/
def nextCommentId (db : DB) : Nat :=
  (db.comments.foldr (fun c m => max c.id m) 0) + 1

/-- The unconditional tail of `add_comment_api` (`routes/api.py` lines
464-477): construct the comment, add, commit, answer with its id. -/
def insertComment (db : DB) (post : Post) (ident : IdentityContext)
    (body : String) (pf : Option Nat) : ApiOutcome Nat × DB :=
  let cid := nextCommentId db
  (.ok cid, { db with comments := db.comments ++ [mkComment ident cid post.id body pf] })

/-- Embedding of `add_comment_api` (`routes/api.py` lines 433-485): trim
and require a body, `get_or_404` the post, and when a parent id is present
(Python truthiness: a non-`None`, nonzero value) require the parent to
exist and belong to the same post.  No reply-depth check occurs between
the parent validation and the insert — the block after the parent check at
lines 458-460 is empty. -/
def add_comment_api (db : DB) (pid : Nat) (ident : IdentityContext)
    (rawBody : String) (parent_field : Option Nat) : ApiOutcome Nat × DB :=
  let body := pyStrip rawBody
  if body == "" then (.badRequest "Comment body is required.", db)
  else
    match db.posts.find? (fun p => p.id == pid) with
    | none => (.notFound, db)
    | some post =>
      match parent_field with
      | some n =>
        if n != 0 then
          match db.comments.find? (fun c => c.id == n) with
          | none => (.badRequest "Invalid parent comment.", db)
          | some parent =>
            if parent.post_id != post.id then (.badRequest "Invalid parent comment.", db)
            else insertComment db post ident body parent_field
        else insertComment db post ident body parent_field
      | none => insertComment db post ident body parent_field

/-- Length of the parent chain of comment `cid` (the comment itself plus
its ancestors), computed with fuel to stay total on arbitrary row lists;
with fuel at least the table size it measures the reply depth the spec's
depth policy speaks about. -/
def parentChainLen (comments : List Comment) : Nat → Nat → Nat
  | 0, _ => 0
  | fuel + 1, cid =>
    match comments.find? (fun c => c.id == cid) with
    | none => 0
    | some c =>
      match c.parent_comment_id with
      | none => 1
      | some p => 1 + parentChainLen comments fuel p

/-- The ownership test of `routes/post.py` (lines 222-226, 266-267,
293-295, 325-328): `(record.author_user_id and record.author_user_id ==
ident.user_id) or (record.author_persona_id and record.author_persona_id
== ident.persona_id)`.  Python truthiness makes a `None` or `0` foreign
key fail its disjunct, and comparing an `int` against a `None`
`ident.persona_id` is `False`. -/
def checkAuthorship (au ap : Option Nat) (ident : IdentityContext) : Bool :=
  (match au with
   | none => false
   | some n => n != 0 && n == ident.userId) ||
  (match ap with
   | none => false
   | some m =>
     m != 0 &&
       (match ident.personaId with
        | none => false
        | some k => m == k))

/-- Embedding of `edit_post_post` (`routes/post.py` lines 215-255)
restricted to its state-relevant skeleton: `get_or_404`, the ownership
check (which precedes form validation in the source), then the field
update; `newImage` stands for the already-stripped optional image URL. -/
def edit_post_post (db : DB) (pid : Nat) (ident : IdentityContext)
    (newTitle newBody : String) (newImage : Option String) : ApiOutcome Unit × DB :=
  match db.posts.find? (fun p => p.id == pid) with
  | none => (.notFound, db)
  | some post =>
    if !(checkAuthorship post.author_user_id post.author_persona_id ident) then
      (.badRequest "You can only edit your own posts.", db)
    else
      (.ok (), { db with posts := db.posts.map (fun p =>
          if p.id == pid then
            { p with title := pyStrip newTitle, body := pyStrip newBody, image_url := newImage }
          else p) })

/-- Embedding of `delete_comment` (`routes/post.py` lines 318-343):
`get_or_404`, the ownership check, then deletion of the fetched row. -/
def delete_comment (db : DB) (cid : Nat) (ident : IdentityContext) :
    ApiOutcome Unit × DB :=
  match db.comments.find? (fun c => c.id == cid) with
  | none => (.notFound, db)
  | some c =>
    if !(checkAuthorship c.author_user_id c.author_persona_id ident) then
      (.badRequest "You can only delete your own comments.", db)
    else
      (.ok (), { db with comments := db.comments.filter (fun x => !(x.id == cid)) })

/-- The exactly-one-of-two-foreign-keys authorship invariant of §3/§4.2
(the `CheckConstraint`s of `models.py`). -/
def exactlyOneIdentity (u p : Option Nat) : Prop :=
  (u.isSome ∧ p = none) ∨ (u = none ∧ p.isSome)

/-- C5: every record built by the create operations (the `Vote(...)`,
`SavedPost(...)`, `Comment(...)` and `Post(...)` constructions of
`routes/api.py` and `routes/post.py`) carries exactly one non-null
identity foreign key, decided by the single branch on `ident.is_persona`. -/
theorem created_records_have_exactly_one_identity (ident : IdentityContext)
    (pid cid community_id : Nat) (v : Int) (cbody title pbody : String)
    (pf : Option Nat) (image : Option String) :
    exactlyOneIdentity (mkVote ident pid v).voted_by_user_id
      (mkVote ident pid v).voted_by_persona_id ∧
    exactlyOneIdentity (mkSavedPost ident pid).saved_by_user_id
      (mkSavedPost ident pid).saved_by_persona_id ∧
    exactlyOneIdentity (mkComment ident cid pid cbody pf).author_user_id
      (mkComment ident cid pid cbody pf).author_persona_id ∧
    exactlyOneIdentity (mkPost ident pid community_id title pbody image).author_user_id
      (mkPost ident pid community_id title pbody image).author_persona_id := by
  have h : exactlyOneIdentity (authorUserField ident) (authorPersonaField ident) := by
    cases hap : ident.active_persona with
    | none =>
      left
      simp [authorUserField, authorPersonaField, IdentityContext.isPersona, hap]
    | some p =>
      right
      simp [authorUserField, authorPersonaField, IdentityContext.isPersona,
        IdentityContext.personaId, hap]
  exact ⟨h, h, h, h⟩

/-- C8: an integer vote value outside `{-1, 0, 1}` is rejected with the
validation error and an unchanged store, for EVERY store — including one
in which the post does not exist, which shows the rejection happens before
the post lookup; and a valid value against an unknown post id yields the
404 with an unchanged store. -/
theorem vote_rejects_invalid_value_and_unknown_post :
    (∀ (db : DB) (pid : Nat) (ident : IdentityContext) (n : Int),
        n ≠ -1 → n ≠ 0 → n ≠ 1 →
        vote db pid ident (.int n) = (.badRequest "Invalid vote value.", db)) ∧
    (∀ (db : DB) (pid : Nat) (ident : IdentityContext) (n : Int),
        (n = -1 ∨ n = 0 ∨ n = 1) →
        db.posts.find? (fun p => p.id == pid) = none →
        vote db pid ident (.int n) = (.notFound, db)) := by
  constructor
  · intro db pid ident n h1 h0 hp
    have hc : ((n : Int) != -1 && n != 0 && n != 1) = true := by
      simp [bne_iff_ne, h1, h0, hp]
    simp [vote, pyParseVote, hc]
  · intro db pid ident n hv hfind
    have hc : ((n : Int) != -1 && n != 0 && n != 1) = false := by
      rcases hv with h | h | h <;> simp [h]
    simp [vote, pyParseVote, hc, hfind]

/-- Witness for `vote_rejects_invalid_value_and_unknown_post`: value `5`
is rejected even though post 1 does not exist in the empty store, and
value `1` on the empty store is a 404. -/
theorem vote_rejects_invalid_value_and_unknown_post_witness :
    vote ⟨[], [], [], []⟩ 1 ⟨1, none⟩ (.int 5) =
      (.badRequest "Invalid vote value.", ⟨[], [], [], []⟩) ∧
    vote ⟨[], [], [], []⟩ 1 ⟨1, none⟩ (.int 1) = (.notFound, ⟨[], [], [], []⟩) :=
  ⟨vote_rejects_invalid_value_and_unknown_post.1 ⟨[], [], [], []⟩ 1 ⟨1, none⟩ 5
      (by decide) (by decide) (by decide),
    vote_rejects_invalid_value_and_unknown_post.2 ⟨[], [], [], []⟩ 1 ⟨1, none⟩ 1
      (by decide) (by decide)⟩

/-- C10: a `vote` field that Python's `int(...)` cannot parse (a
non-numeric string, JSON `null`, or a missing key) is NOT rejected: the
`except` clause coerces it to `0`, so the call behaves exactly like an
explicit vote removal — it succeeds with a resulting vote of `0`, deletes
every vote row of the acting identity on the post, and adjusts the
counters by the prior value. -/
theorem unparsable_vote_coerced_to_removal (db : DB) (pid : Nat)
    (ident : IdentityContext) (f : VoteField)
    (hf : (∃ s, f = VoteField.str s ∧ pyInt s = none) ∨
      f = VoteField.null ∨ f = VoteField.absent)
    (hpost : (db.posts.find? (fun p => p.id == pid)).isSome) :
    vote db pid ident f = vote db pid ident (.int 0) ∧
    (∃ resp, (vote db pid ident f).1 = .ok resp ∧ resp.vote = 0) ∧
    (vote db pid ident f).2.votes =
      db.votes.filter (fun r => !(voteMatches ident pid r)) ∧
    (vote db pid ident f).2.posts =
      (voteCommit2 db pid (oldVoteValue db pid ident) 0).posts := by
  have h0 : pyParseVote f = 0 := by
    rcases hf with ⟨s, rfl, hs⟩ | rfl | rfl
    · simp [pyParseVote, hs]
    · rfl
    · rfl
  obtain ⟨post0, hfind⟩ := Option.isSome_iff_exists.mp hpost
  have hvote : vote db pid ident f = vote db pid ident (.int 0) := by
    unfold vote
    rw [h0]
    rfl
  have hrun : vote db pid ident (.int 0) =
      (.ok ⟨(adjustCounters (oldVoteValue db pid ident) 0 post0).upvotes,
          (adjustCounters (oldVoteValue db pid ident) 0 post0).downvotes, 0,
          (adjustCounters (oldVoteValue db pid ident) 0 post0).upvotes -
            (adjustCounters (oldVoteValue db pid ident) 0 post0).downvotes⟩,
        voteCommit2 (voteCommit1 db pid ident 0) pid (oldVoteValue db pid ident) 0) := by
    simp [vote, pyParseVote, hfind]
  refine ⟨hvote, ?_, ?_, ?_⟩
  · rw [hvote, hrun]
    exact ⟨_, rfl, rfl⟩
  · rw [hvote, hrun]
    simp [voteCommit1, voteCommit2]
  · rw [hvote, hrun]
    simp [voteCommit1, voteCommit2]

/-- Witness for `unparsable_vote_coerced_to_removal`: the string `"abc"`
behaves exactly like an explicit `0` vote on a store holding post 1. -/
theorem unparsable_vote_coerced_to_removal_witness :
    vote ⟨[⟨1, "t", "b", none, 1, 0, 0, some 1, none⟩], [], [], []⟩ 1 ⟨1, none⟩
        (.str "abc") =
      vote ⟨[⟨1, "t", "b", none, 1, 0, 0, some 1, none⟩], [], [], []⟩ 1 ⟨1, none⟩
        (.int 0) :=
  (unparsable_vote_coerced_to_removal
      ⟨[⟨1, "t", "b", none, 1, 0, 0, some 1, none⟩], [], [], []⟩ 1 ⟨1, none⟩
      (.str "abc") (Or.inl ⟨"abc", rfl, by decide⟩) (by decide)).1

/-- Counter adjustment never changes a post's primary key. -/
theorem adjustCounters_id (o v : Int) (p : Post) :
    (adjustCounters o v p).id = p.id := by
  simp only [adjustCounters]
  repeat' split
  all_goals rfl

/-- Looking a post up by id commutes with an id-preserving rewrite of the
table. -/
theorem find?_map_of_id (l : List Post) (pid : Nat) (g : Post → Post)
    (hg : ∀ p, (g p).id = p.id) :
    (l.map g).find? (fun p => p.id == pid) =
      (l.find? (fun p => p.id == pid)).map g := by
  induction l with
  | nil => rfl
  | cons a t ih =>
    by_cases h : (a.id == pid) = true
    · simp [List.find?_cons_of_pos, h, hg]
    · rw [List.map_cons, List.find?_cons_of_neg, List.find?_cons_of_neg]
      · exact ih
      · simpa using h
      · simpa [hg] using h

/-- C9: a successful `vote` call answers with the caller's resulting vote
value, a score equal to `upvotes - downvotes`, and the upvote/downvote
counters of the post as stored after the call; and the spec's concrete
scenario holds: on a fresh post, voting `+1`, then `-1`, then `0` yields
`(upvotes, downvotes, score)` of `(1,0,1)`, `(0,1,-1)`, `(0,0,0)`. -/
theorem vote_returns_new_aggregate :
    (∀ (db : DB) (pid : Nat) (ident : IdentityContext) (v : Int) (post0 : Post),
        (v = -1 ∨ v = 0 ∨ v = 1) →
        db.posts.find? (fun p => p.id == pid) = some post0 →
        ∃ resp, (vote db pid ident (.int v)).1 = .ok resp ∧
          resp.vote = v ∧
          resp.score = resp.upvotes - resp.downvotes ∧
          ((vote db pid ident (.int v)).2.posts.find? (fun p => p.id == pid)).map
              Post.upvotes = some resp.upvotes ∧
          ((vote db pid ident (.int v)).2.posts.find? (fun p => p.id == pid)).map
              Post.downvotes = some resp.downvotes) ∧
    (vote ⟨[⟨1, "t", "b", none, 1, 0, 0, some 1, none⟩], [], [], []⟩ 1 ⟨1, none⟩
        (.int 1)).1 = .ok ⟨1, 0, 1, 1⟩ ∧
    (vote (vote ⟨[⟨1, "t", "b", none, 1, 0, 0, some 1, none⟩], [], [], []⟩ 1
          ⟨1, none⟩ (.int 1)).2 1 ⟨1, none⟩ (.int (-1))).1 = .ok ⟨0, 1, -1, -1⟩ ∧
    (vote (vote (vote ⟨[⟨1, "t", "b", none, 1, 0, 0, some 1, none⟩], [], [], []⟩ 1
          ⟨1, none⟩ (.int 1)).2 1 ⟨1, none⟩ (.int (-1))).2 1 ⟨1, none⟩
        (.int 0)).1 = .ok ⟨0, 0, 0, 0⟩ := by
  refine ⟨?_, by decide, by decide, by decide⟩
  intro db pid ident v post0 hv hfind
  have hc : ((v : Int) != -1 && v != 0 && v != 1) = false := by
    rcases hv with h | h | h <;> simp [h]
  have hrun : vote db pid ident (.int v) =
      (.ok ⟨(adjustCounters (oldVoteValue db pid ident) v post0).upvotes,
          (adjustCounters (oldVoteValue db pid ident) v post0).downvotes, v,
          (adjustCounters (oldVoteValue db pid ident) v post0).upvotes -
            (adjustCounters (oldVoteValue db pid ident) v post0).downvotes⟩,
        voteCommit2 (voteCommit1 db pid ident v) pid (oldVoteValue db pid ident) v) := by
    simp [vote, pyParseVote, hc, hfind]
  have hg : ∀ p : Post,
      ((fun p => if p.id == pid then
          adjustCounters (oldVoteValue db pid ident) v p else p) p).id = p.id := by
    intro p
    by_cases h : (p.id == pid) = true <;> simp [h, adjustCounters_id]
  have hpost0 := List.find?_some hfind
  have hp : post0.id = pid := by simpa using hpost0
  refine ⟨_, by rw [hrun], rfl, rfl, ?_, ?_⟩ <;>
    rw [hrun] <;>
    simp only [voteCommit2, voteCommit1] <;>
    rw [find?_map_of_id db.posts pid _ hg, hfind] <;>
    simp [hp]

/-- Witness for the universally quantified part of
`vote_returns_new_aggregate`, at the fresh post of the scenario with a
`+1` vote. -/
theorem vote_returns_new_aggregate_witness :
    ∃ resp,
      (vote ⟨[⟨1, "t", "b", none, 1, 0, 0, some 1, none⟩], [], [], []⟩ 1 ⟨1, none⟩
          (.int 1)).1 = .ok resp ∧
      resp.vote = 1 ∧
      resp.score = resp.upvotes - resp.downvotes ∧
      ((vote ⟨[⟨1, "t", "b", none, 1, 0, 0, some 1, none⟩], [], [], []⟩ 1 ⟨1, none⟩
            (.int 1)).2.posts.find? (fun p => p.id == 1)).map Post.upvotes =
        some resp.upvotes ∧
      ((vote ⟨[⟨1, "t", "b", none, 1, 0, 0, some 1, none⟩], [], [], []⟩ 1 ⟨1, none⟩
            (.int 1)).2.posts.find? (fun p => p.id == 1)).map Post.downvotes =
        some resp.downvotes :=
  vote_returns_new_aggregate.1 ⟨[⟨1, "t", "b", none, 1, 0, 0, some 1, none⟩], [], [], []⟩
    1 ⟨1, none⟩ 1 ⟨1, "t", "b", none, 1, 0, 0, some 1, none⟩ (by decide) (by decide)


/-- Shorthand for the store after the unsave branch of the `save`
endpoint: the first matching `SavedPost` row, if any, is deleted. -/
def unsaveState (db : DB) (pid : Nat) (ident : IdentityContext) : DB :=
  { db with saved_posts := removeFirst (savedMatches ident pid) db.saved_posts }

/-- Shorthand for the store after a fresh save: the new row is appended. -/
def saveInsertState (db : DB) (pid : Nat) (ident : IdentityContext) : DB :=
  { db with saved_posts := db.saved_posts ++ [mkSavedPost ident pid] }

/-- The freshly constructed `SavedPost` row matches the `filter_by` key
its own identity uses for lookups. -/
theorem mkSavedPost_matches (ident : IdentityContext) (pid : Nat) :
    savedMatches ident pid (mkSavedPost ident pid) = true := by
  cases h : ident.active_persona <;>
    simp [savedMatches, mkSavedPost, authorUserField, authorPersonaField,
      IdentityContext.isPersona, IdentityContext.personaId, h]

/-- `removeFirst` is the identity on a list with no matching element. -/
theorem removeFirst_of_none {α : Type} (p : α → Bool) (l : List α)
    (h : ∀ x ∈ l, p x = false) : removeFirst p l = l := by
  induction l with
  | nil => rfl
  | cons a t ih =>
    have ha : p a = false := h a (List.mem_cons_self a t)
    simp [removeFirst, ha]
    exact ih (fun x hx => h x (List.mem_cons_of_mem a hx))

/-- Dropping the first match from a list with at most one match leaves a
list with no match. -/
theorem filter_removeFirst_of_le_one {α : Type} (p : α → Bool) (l : List α)
    (h : (l.filter p).length ≤ 1) : (removeFirst p l).filter p = [] := by
  induction l with
  | nil => rfl
  | cons a t ih =>
    by_cases ha : p a = true
    · have hcons : (a :: t).filter p = a :: t.filter p := by
        simp [List.filter_cons, ha]
      rw [hcons] at h
      simp only [List.length_cons] at h
      have ht : t.filter p = [] := List.length_eq_zero.mp (by omega)
      simp [removeFirst, ha, ht]
    · have ha' : p a = false := by simpa using ha
      have hcons : (a :: t).filter p = t.filter p := by
        simp [List.filter_cons, ha']
      rw [hcons] at h
      simp [removeFirst, ha', List.filter_cons, ih h]

/-- C7: `set_saved` is idempotent in both directions — on a store whose
`saved_posts` table satisfies the schema's at-most-one-row-per-(post,
identity) uniqueness (the partial unique indexes of `models.py`), a second
identical `save` call returns the same response and the same store; and
when the post exists, saving answers `true` leaving exactly one matching
row, while unsaving answers `false` leaving none. -/
theorem set_saved_idempotent (db : DB) (pid : Nat) (ident : IdentityContext)
    (huniq : (db.saved_posts.filter (savedMatches ident pid)).length ≤ 1) :
    save (save db pid ident true).2 pid ident true = save db pid ident true ∧
    save (save db pid ident false).2 pid ident false = save db pid ident false ∧
    ((db.posts.find? (fun p => p.id == pid)).isSome →
      (save db pid ident true).1 = .ok true ∧
      ((save db pid ident true).2.saved_posts.filter
          (savedMatches ident pid)).length = 1 ∧
      (save db pid ident false).1 = .ok false ∧
      ((save db pid ident false).2.saved_posts.filter
          (savedMatches ident pid)).length = 0) := by
  have hfz : (removeFirst (savedMatches ident pid) db.saved_posts).filter
      (savedMatches ident pid) = [] :=
    filter_removeFirst_of_le_one _ _ huniq
  have hnomatch : ∀ x ∈ removeFirst (savedMatches ident pid) db.saved_posts,
      ¬ savedMatches ident pid x = true := List.filter_eq_nil_iff.mp hfz
  have hrf2 : removeFirst (savedMatches ident pid)
      (removeFirst (savedMatches ident pid) db.saved_posts) =
      removeFirst (savedMatches ident pid) db.saved_posts :=
    removeFirst_of_none _ _ (fun x hx => by simpa using hnomatch x hx)
  have hnone2 : (removeFirst (savedMatches ident pid) db.saved_posts).find?
      (savedMatches ident pid) = none :=
    List.find?_eq_none.mpr hnomatch
  cases hpost : db.posts.find? (fun p => p.id == pid) with
  | none =>
    have h1 : save db pid ident true = (.notFound, db) := by simp [save, hpost]
    have h0 : save db pid ident false = (.notFound, db) := by simp [save, hpost]
    refine ⟨by rw [h1]; exact h1, by rw [h0]; exact h0, ?_⟩
    intro hs
    simp at hs
  | some post0 =>
    have h0 : save db pid ident false = (.ok false, unsaveState db pid ident) := by
      simp [save, hpost, unsaveState]
    have h0' : save (unsaveState db pid ident) pid ident false =
        (.ok false, unsaveState db pid ident) := by
      have : unsaveState (unsaveState db pid ident) pid ident =
          unsaveState db pid ident := by
        simp [unsaveState, hrf2]
      simp [save, unsaveState, hpost]
      exact hrf2
    have hidem0 : save (save db pid ident false).2 pid ident false =
        save db pid ident false := by
      rw [h0]
      rw [h0']
    cases hex : db.saved_posts.find? (savedMatches ident pid) with
    | some r =>
      have h1 : save db pid ident true = (.ok true, db) := by
        simp [save, hpost, hex]
      have hr : r ∈ db.saved_posts.filter (savedMatches ident pid) :=
        List.mem_filter.mpr ⟨List.mem_of_find?_eq_some hex, List.find?_some hex⟩
      have hlen1 : (db.saved_posts.filter (savedMatches ident pid)).length = 1 := by
        have hpos : 0 < (db.saved_posts.filter (savedMatches ident pid)).length :=
          List.length_pos.mpr (List.ne_nil_of_mem hr)
        omega
      refine ⟨by rw [h1]; exact h1, hidem0, fun _ => ?_⟩
      refine ⟨by rw [h1], by rw [h1]; exact hlen1, by rw [h0], ?_⟩
      rw [h0]
      simpa [unsaveState] using congrArg List.length hfz
    | none =>
      have hfilz : db.saved_posts.filter (savedMatches ident pid) = [] :=
        List.filter_eq_nil_iff.mpr (List.find?_eq_none.mp hex)
      have h1 : save db pid ident true = (.ok true, saveInsertState db pid ident) := by
        simp [save, hpost, hex, saveInsertState]
      have hfind_new : (db.saved_posts ++ [mkSavedPost ident pid]).find?
          (savedMatches ident pid) = some (mkSavedPost ident pid) := by
        rw [List.find?_append, hex]
        simp [List.find?, mkSavedPost_matches]
      have h1' : save (saveInsertState db pid ident) pid ident true =
          (.ok true, saveInsertState db pid ident) := by
        simp [save, saveInsertState, hpost, hfind_new]
      refine ⟨by rw [h1]; rw [h1'], hidem0, fun _ => ?_⟩
      refine ⟨by rw [h1], ?_, by rw [h0], ?_⟩
      · rw [h1]
        simp [saveInsertState, List.filter_append, hfilz, mkSavedPost_matches]
      · rw [h0]
        simpa [unsaveState] using congrArg List.length hfz

/-- Witness for `set_saved_idempotent`: account 1 on a store holding post
1 and no saved rows. -/
theorem set_saved_idempotent_witness :
    save (save ⟨[⟨1, "t", "b", none, 1, 0, 0, some 1, none⟩], [], [], []⟩ 1
        ⟨1, none⟩ true).2 1 ⟨1, none⟩ true =
      save ⟨[⟨1, "t", "b", none, 1, 0, 0, some 1, none⟩], [], [], []⟩ 1
        ⟨1, none⟩ true :=
  (set_saved_idempotent ⟨[⟨1, "t", "b", none, 1, 0, 0, some 1, none⟩], [], [], []⟩
    1 ⟨1, none⟩ (by decide)).1

/-- C6: the edit/delete ownership check compares the record's author
against the acting disjoint identity — an account-id match or a
persona-id match — so a persona-authored record (null author account id,
persona author key `k`) passes the check exactly when the acting identity
is that same persona; otherwise `edit_post_post` and `delete_comment`
reject with the ownership error and return the store unchanged, and when
the same persona acts the mutation is accepted. -/
theorem ownership_checks_use_disjoint_identity (ident : IdentityContext)
    (k : Nat) (hk : k ≠ 0) :
    (checkAuthorship none (some k) ident = true ↔ ident.personaId = some k) ∧
    (∀ (db : DB) (pid : Nat) (t b : String) (img : Option String) (post : Post),
        db.posts.find? (fun p => p.id == pid) = some post →
        post.author_user_id = none → post.author_persona_id = some k →
        ident.personaId ≠ some k →
        edit_post_post db pid ident t b img =
          (.badRequest "You can only edit your own posts.", db)) ∧
    (∀ (db : DB) (pid : Nat) (t b : String) (img : Option String) (post : Post),
        db.posts.find? (fun p => p.id == pid) = some post →
        post.author_user_id = none → post.author_persona_id = some k →
        ident.personaId = some k →
        (edit_post_post db pid ident t b img).1 = .ok ()) ∧
    (∀ (db : DB) (cid : Nat) (c : Comment),
        db.comments.find? (fun x => x.id == cid) = some c →
        c.author_user_id = none → c.author_persona_id = some k →
        ident.personaId ≠ some k →
        delete_comment db cid ident =
          (.badRequest "You can only delete your own comments.", db)) ∧
    (∀ (db : DB) (cid : Nat) (c : Comment),
        db.comments.find? (fun x => x.id == cid) = some c →
        c.author_user_id = none → c.author_persona_id = some k →
        ident.personaId = some k →
        (delete_comment db cid ident).1 = .ok ()) := by
  have hchar : checkAuthorship none (some k) ident = true ↔
      ident.personaId = some k := by
    cases hip : ident.personaId with
    | none => simp [checkAuthorship, hip]
    | some j =>
      simp [checkAuthorship, hip, hk]
      constructor
      · intro h
        exact h.symm
      · intro h
        exact h.symm
  refine ⟨hchar, ?_, ?_, ?_, ?_⟩
  · intro db pid t b img post hfind hau hap hne
    have hfalse : checkAuthorship post.author_user_id post.author_persona_id
        ident = false := by
      rw [hau, hap]
      by_contra hcontra
      exact hne (hchar.mp (by simpa using hcontra))
    simp [edit_post_post, hfind, hfalse]
  · intro db pid t b img post hfind hau hap heq
    have htrue : checkAuthorship post.author_user_id post.author_persona_id
        ident = true := by
      rw [hau, hap]
      exact hchar.mpr heq
    simp [edit_post_post, hfind, htrue]
  · intro db cid c hfind hau hap hne
    have hfalse : checkAuthorship c.author_user_id c.author_persona_id
        ident = false := by
      rw [hau, hap]
      by_contra hcontra
      exact hne (hchar.mp (by simpa using hcontra))
    simp [delete_comment, hfind, hfalse]
  · intro db cid c hfind hau hap heq
    have htrue : checkAuthorship c.author_user_id c.author_persona_id
        ident = true := by
      rw [hau, hap]
      exact hchar.mpr heq
    simp [delete_comment, hfind, htrue]

/-- Witness for `ownership_checks_use_disjoint_identity`: post 1 is
authored by persona 7; the owning account acting as itself (no persona
selected) cannot edit it, and the store is returned unchanged. -/
theorem ownership_checks_use_disjoint_identity_witness :
    edit_post_post
        ⟨[⟨1, "t", "b", none, 1, 0, 0, none, some 7⟩], [], [], []⟩ 1 ⟨1, none⟩
        "x" "y" none =
      (.badRequest "You can only edit your own posts.",
        ⟨[⟨1, "t", "b", none, 1, 0, 0, none, some 7⟩], [], [], []⟩) :=
  (ownership_checks_use_disjoint_identity ⟨1, none⟩ 7 (by decide)).2.1
    ⟨[⟨1, "t", "b", none, 1, 0, 0, none, some 7⟩], [], [], []⟩ 1 "x" "y" none
    ⟨1, "t", "b", none, 1, 0, 0, none, some 7⟩ (by decide) rfl rfl (by decide)

/-- A reply chain on post 1: comment `1` is a root, comment `i + 1`
replies to comment `i`. -/
def chainComments : Nat → List Comment
  | 0 => []
  | n + 1 =>
    chainComments n ++ [⟨n + 1, "c", 1, some 1, none, if n == 0 then none else some n⟩]

/-- A store holding post 1 and an `n`-deep reply chain on it. -/
def chainDb (n : Nat) : DB :=
  ⟨[⟨1, "t", "b", none, 1, 0, 0, some 1, none⟩], chainComments n, [], []⟩

set_option maxRecDepth 40000 in
/-- C2: the reply-depth cap is absent from `add_comment_api` even though
its docstring announces it ("SAFETY: Validates comment depth to prevent
infinite nesting") — the block after the parent validation at
`routes/api.py` lines 458-460 is empty.  Concretely: comment 100 sits at
parent-chain depth 100, yet replying to it is accepted (no
maximum-reply-depth rejection), the reply is stored with parent 100, and
the table grows to 101 comments. -/
theorem comment_depth_cap_absent :
    parentChainLen (chainDb 100).comments 200 100 = 100 ∧
    (add_comment_api (chainDb 100) 1 ⟨1, none⟩ "reply" (some 100)).1 = .ok 101 ∧
    ((add_comment_api (chainDb 100) 1 ⟨1, none⟩ "reply" (some 100)).2.comments.filter
        (fun c => c.parent_comment_id == some 100)).length = 1 ∧
    (add_comment_api (chainDb 100) 1 ⟨1, none⟩ "reply" (some 100)).2.comments.length
      = 101 := by
  refine ⟨by decide, by decide, by decide, by decide⟩

/-- Signed sum of all stored vote values for post `pid`. -/
def postVoteSum (db : DB) (pid : Nat) : Int :=
  (db.votes.filter (fun r => r.post_id == pid)).foldr (fun r s => r.value + s) 0

/-- The consistency relation between post `pid`'s denormalized counters
and its stored vote rows: `upvotes - downvotes` equals the sum of the
stored values. -/
def CountersConsistent (db : DB) (pid : Nat) : Prop :=
  ∀ p ∈ db.posts, p.id = pid → p.upvotes - p.downvotes = postVoteSum db pid

instance (db : DB) (pid : Nat) : Decidable (CountersConsistent db pid) := by
  unfold CountersConsistent
  infer_instance

/-- C1 counterexample: the `vote` endpoint is NOT atomic.  Start from a
consistent store (post 1 with counters `(1, 0)` and a single `+1` vote by
account 1) and remove the vote (`value = 0`).  The state persisted by the
first commit has the vote row already deleted while the counters are
still `(1, 0)` — a reachable on-disk state with the vote-row change
applied and the counter adjustment absent, violating the claimed
both-or-neither guarantee; only the second commit restores consistency. -/
theorem vote_commit_gap_counterexample :
    CountersConsistent
      ⟨[⟨1, "t", "b", none, 1, 1, 0, some 2, none⟩], [], [⟨1, some 1, none, 1⟩], []⟩ 1 ∧
    (voteIntermediate
      ⟨[⟨1, "t", "b", none, 1, 1, 0, some 2, none⟩], [], [⟨1, some 1, none, 1⟩], []⟩
      1 ⟨1, none⟩ (.int 0)).votes = [] ∧
    (voteIntermediate
      ⟨[⟨1, "t", "b", none, 1, 1, 0, some 2, none⟩], [], [⟨1, some 1, none, 1⟩], []⟩
      1 ⟨1, none⟩ (.int 0)).posts = [⟨1, "t", "b", none, 1, 1, 0, some 2, none⟩] ∧
    ¬ CountersConsistent (voteIntermediate
      ⟨[⟨1, "t", "b", none, 1, 1, 0, some 2, none⟩], [], [⟨1, some 1, none, 1⟩], []⟩
      1 ⟨1, none⟩ (.int 0)) 1 ∧
    CountersConsistent (vote
      ⟨[⟨1, "t", "b", none, 1, 1, 0, some 2, none⟩], [], [⟨1, some 1, none, 1⟩], []⟩
      1 ⟨1, none⟩ (.int 0)).2 1 := by
  refine ⟨by decide, by decide, by decide, by decide, by decide⟩

/-- C1 as amended: the two mutations are persisted by two SEPARATE
commits.  The first committed state carries exactly the vote-row mutation
(all post rows unchanged, the identity's vote rows replaced); the final
state is the counter adjustment applied on top of that intermediate
state, and the counter commit touches no vote row.  A failure between the
two commits therefore leaves exactly the intermediate state behind. -/
theorem vote_two_separate_commits (db : DB) (pid : Nat)
    (ident : IdentityContext) (f : VoteField)
    (hval : pyParseVote f = -1 ∨ pyParseVote f = 0 ∨ pyParseVote f = 1)
    (hpost : (db.posts.find? (fun p => p.id == pid)).isSome) :
    (voteIntermediate db pid ident f).posts = db.posts ∧
    (voteIntermediate db pid ident f).votes =
      db.votes.filter (fun r => !(voteMatches ident pid r)) ++
        (if pyParseVote f != 0 then [mkVote ident pid (pyParseVote f)] else []) ∧
    (vote db pid ident f).2 =
      voteCommit2 (voteIntermediate db pid ident f) pid
        (oldVoteValue db pid ident) (pyParseVote f) ∧
    (vote db pid ident f).2.votes = (voteIntermediate db pid ident f).votes := by
  have hc : (pyParseVote f != -1 && pyParseVote f != 0 && pyParseVote f != 1)
      = false := by
    rcases hval with h | h | h <;> simp [h]
  obtain ⟨post0, hfind⟩ := Option.isSome_iff_exists.mp hpost
  have hint : voteIntermediate db pid ident f =
      voteCommit1 db pid ident (pyParseVote f) := by
    simp [voteIntermediate, hc, hfind]
  refine ⟨by rw [hint]; rfl, by rw [hint]; rfl, ?_, ?_⟩
  · rw [hint]
    simp [vote, hc, hfind]
  · rw [hint]
    simp [vote, hc, hfind, voteCommit2]

/-- Witness for `vote_two_separate_commits`, at the counterexample's
store: the final state is the counter commit applied to the first
committed state. -/
theorem vote_two_separate_commits_witness :
    (vote ⟨[⟨1, "t", "b", none, 1, 1, 0, some 2, none⟩], [],
        [⟨1, some 1, none, 1⟩], []⟩ 1 ⟨1, none⟩ (.int 0)).2 =
      voteCommit2 (voteIntermediate
          ⟨[⟨1, "t", "b", none, 1, 1, 0, some 2, none⟩], [],
            [⟨1, some 1, none, 1⟩], []⟩ 1 ⟨1, none⟩ (.int 0)) 1
        (oldVoteValue
          ⟨[⟨1, "t", "b", none, 1, 1, 0, some 2, none⟩], [],
            [⟨1, some 1, none, 1⟩], []⟩ 1 ⟨1, none⟩) (pyParseVote (.int 0)) :=
  (vote_two_separate_commits
    ⟨[⟨1, "t", "b", none, 1, 1, 0, some 2, none⟩], [], [⟨1, some 1, none, 1⟩], []⟩
    1 ⟨1, none⟩ (.int 0) (by decide) (by decide)).2.2.1

/-- Splitting a filtered count along a second predicate. -/
theorem length_filter_split {α : Type} (m q : α → Bool) (l : List α) :
    (l.filter q).length =
      ((l.filter m).filter q).length +
        ((l.filter (fun a => !(m a))).filter q).length := by
  induction l with
  | nil => rfl
  | cons a t ih =>
    by_cases hm : m a = true <;> by_cases hq : q a = true <;>
      simp [List.filter_cons, hm, hq, ih] <;> omega

/-- Filtering for `m` after removing every `m`-match yields nothing. -/
theorem filter_not_filter {α : Type} (m : α → Bool) (l : List α) :
    (l.filter (fun a => !(m a))).filter m = [] := by
  induction l with
  | nil => rfl
  | cons a t ih =>
    by_cases hm : m a = true <;> simp [List.filter_cons, hm, ih]

/-- Removing `m`-matches does not change a count disjoint from `m`. -/
theorem filter_not_of_imp {α : Type} (m q : α → Bool) (l : List α)
    (h : ∀ a ∈ l, q a = true → m a = false) :
    (l.filter (fun a => !(m a))).filter q = l.filter q := by
  induction l with
  | nil => rfl
  | cons a t ih =>
    have ht : ∀ a ∈ t, q a = true → m a = false :=
      fun x hx => h x (List.mem_cons_of_mem a hx)
    by_cases hq : q a = true
    · have hm : m a = false := h a (List.mem_cons_self a t) hq
      simp [List.filter_cons, hm, hq, ih ht]
    · by_cases hm : m a = true <;>
        simp [List.filter_cons, hm, hq, ih ht]

/-- With at most one `m`-match, a successful `find?` determines the whole
filtered list. -/
theorem filter_eq_single_of_find? {α : Type} (m : α → Bool) (l : List α)
    (r : α) (hfind : l.find? m = some r) (hle : (l.filter m).length ≤ 1) :
    l.filter m = [r] := by
  have hr : r ∈ l.filter m :=
    List.mem_filter.mpr ⟨List.mem_of_find?_eq_some hfind, List.find?_some hfind⟩
  match hfl : l.filter m with
  | [] => rw [hfl] at hr; simp at hr
  | [x] =>
    rw [hfl] at hr
    simp at hr
    rw [hr]
  | x :: y :: rest => rw [hfl] at hle; simp at hle

/-- A stored `+1` vote row of post `pid`. -/
def voteUp (pid : Nat) (r : Vote) : Bool :=
  r.post_id == pid && r.value == 1

/-- A stored `-1` vote row of post `pid`. -/
def voteDown (pid : Nat) (r : Vote) : Bool :=
  r.post_id == pid && r.value == -1

/-- The account-scoped uniqueness key of the `uq_vote_user_per_post`
partial unique index. -/
def userKey (pid uid : Nat) (r : Vote) : Bool :=
  r.post_id == pid && r.voted_by_user_id == some uid

/-- The persona-scoped uniqueness key of the `uq_vote_persona_per_post`
partial unique index. -/
def personaKey (pid k : Nat) (r : Vote) : Bool :=
  r.post_id == pid && r.voted_by_persona_id == some k

/-- Validity of the vote ledger for post `pid`, as the schema of
`models.py` guarantees it: every vote value is `±1` (`ck_vote_value`),
every vote names exactly one voter identity (`ck_vote_exactly_one_identity`),
at most one vote row exists per account or persona key (the partial unique
indexes), and post `pid`'s denormalized counters equal the counts of its
stored `+1` / `-1` vote rows. -/
def VoteLedgerOk (db : DB) (pid : Nat) : Prop :=
  (∀ r ∈ db.votes, (r.value = 1 ∨ r.value = -1) ∧
      exactlyOneIdentity r.voted_by_user_id r.voted_by_persona_id) ∧
  (∀ pid' uid', ((db.votes.filter (userKey pid' uid')).length ≤ 1)) ∧
  (∀ pid' k', ((db.votes.filter (personaKey pid' k')).length ≤ 1)) ∧
  (∀ p ∈ db.posts, p.id = pid →
      p.upvotes = ((db.votes.filter (voteUp pid)).length : Int) ∧
      p.downvotes = ((db.votes.filter (voteDown pid)).length : Int))

/-- For an account identity the vote lookup key is the account key. -/
theorem voteMatches_user (ident : IdentityContext) (pid : Nat)
    (h : ident.active_persona = none) (r : Vote) :
    voteMatches ident pid r = userKey pid ident.userId r := by
  simp [voteMatches, userKey, IdentityContext.isPersona, h]

/-- For a persona identity the vote lookup key is the persona key. -/
theorem voteMatches_persona (ident : IdentityContext) (pid : Nat)
    (pp : Persona) (h : ident.active_persona = some pp) (r : Vote) :
    voteMatches ident pid r = personaKey pid pp.id r := by
  simp [voteMatches, personaKey, IdentityContext.isPersona,
    IdentityContext.personaId, h]

/-- Any row the identity's lookup key matches belongs to post `pid`. -/
theorem voteMatches_post_id (ident : IdentityContext) (pid : Nat) (r : Vote)
    (h : voteMatches ident pid r = true) : r.post_id = pid := by
  cases hap : ident.active_persona with
  | none =>
    rw [voteMatches_user ident pid hap] at h
    simp [userKey] at h
    exact h.1
  | some pp =>
    rw [voteMatches_persona ident pid pp hap] at h
    simp [personaKey] at h
    exact h.1

/-- The partial unique indexes bound the identity's matching rows by one. -/
theorem matches_le_one (db : DB) (pid : Nat) (ident : IdentityContext)
    (huser : ∀ pid' uid', ((db.votes.filter (userKey pid' uid')).length ≤ 1))
    (hpersona : ∀ pid' k', ((db.votes.filter (personaKey pid' k')).length ≤ 1)) :
    (db.votes.filter (voteMatches ident pid)).length ≤ 1 := by
  cases hap : ident.active_persona with
  | none =>
    have : db.votes.filter (voteMatches ident pid) =
        db.votes.filter (userKey pid ident.userId) :=
      List.filter_congr (fun r _ => voteMatches_user ident pid hap r)
    rw [this]
    exact huser pid ident.userId
  | some pp =>
    have : db.votes.filter (voteMatches ident pid) =
        db.votes.filter (personaKey pid pp.id) :=
      List.filter_congr (fun r _ => voteMatches_persona ident pid pp hap r)
    rw [this]
    exact hpersona pid pp.id

/-- The freshly inserted vote row matches its own identity's lookup key. -/
theorem mkVote_matches (ident : IdentityContext) (pid : Nat) (v : Int) :
    voteMatches ident pid (mkVote ident pid v) = true := by
  cases h : ident.active_persona <;>
    simp [voteMatches, mkVote, authorUserField, authorPersonaField,
      IdentityContext.isPersona, IdentityContext.personaId, h]

/-- The single `is_persona` branch always yields exactly one non-null
identity field. -/
theorem exactlyOne_authorFields (ident : IdentityContext) :
    exactlyOneIdentity (authorUserField ident) (authorPersonaField ident) := by
  cases hap : ident.active_persona with
  | none =>
    left
    simp [authorUserField, authorPersonaField, IdentityContext.isPersona, hap]
  | some p =>
    right
    simp [authorUserField, authorPersonaField, IdentityContext.isPersona,
      IdentityContext.personaId, hap]

/-- Arithmetic core of counter preservation: with the prior value
accounting for `(a_up, a_dn)` matched rows, `(b_up, b_dn)` untouched
rows, and the new value contributing `(n_up, n_dn)`, the clamped counter
adjustment lands exactly on the new row counts. -/
theorem adjust_counts (p : Post) (old v : Int)
    (a_up b_up a_dn b_dn n_up n_dn : Nat)
    (hold : (old = 0 ∧ a_up = 0 ∧ a_dn = 0) ∨ (old = 1 ∧ a_up = 1 ∧ a_dn = 0) ∨
      (old = -1 ∧ a_up = 0 ∧ a_dn = 1))
    (hv : (v = 0 ∧ n_up = 0 ∧ n_dn = 0) ∨ (v = 1 ∧ n_up = 1 ∧ n_dn = 0) ∨
      (v = -1 ∧ n_up = 0 ∧ n_dn = 1))
    (hup : p.upvotes = ((a_up + b_up : Nat) : Int))
    (hdn : p.downvotes = ((a_dn + b_dn : Nat) : Int)) :
    (adjustCounters old v p).upvotes = ((b_up + n_up : Nat) : Int) ∧
    (adjustCounters old v p).downvotes = ((b_dn + n_dn : Nat) : Int) := by
  rcases hold with ⟨ho, ha, hb⟩ | ⟨ho, ha, hb⟩ | ⟨ho, ha, hb⟩ <;>
    rcases hv with ⟨hw, hn, hm⟩ | ⟨hw, hn, hm⟩ | ⟨hw, hn, hm⟩ <;>
    subst ho <;> subst ha <;> subst hb <;> subst hw <;> subst hn <;> subst hm <;>
    constructor <;>
    simp [adjustCounters, hup, hdn]

/-- Uniqueness of a lookup key survives delete-then-insert: if a table
has at most one `q`-match, then after removing all `m`-matches and
appending rows with at most one `q`-match — where any appended `q`-match
forces `q` to imply `m` — the table still has at most one `q`-match. -/
theorem filter_append_le_one {α : Type} (m q : α → Bool) (l news : List α)
    (hl : (l.filter q).length ≤ 1)
    (hnews : (news.filter q).length ≤ 1)
    (hdisj : (news.filter q).length = 0 ∨ (∀ a, q a = true → m a = true)) :
    (((l.filter (fun a => !(m a))) ++ news).filter q).length ≤ 1 := by
  rw [List.filter_append, List.length_append]
  rcases hdisj with h0 | himp
  · have hsub : ((l.filter (fun a => !(m a))).filter q).length ≤
        (l.filter q).length :=
      List.Sublist.length_le (List.Sublist.filter q (List.filter_sublist l))
    omega
  · have hz : (l.filter (fun a => !(m a))).filter q = [] := by
      rw [List.filter_eq_nil_iff]
      intro a ha hq
      have hma : m a = false := by
        have := (List.mem_filter.mp ha).2
        simpa using this
      rw [himp a hq] at hma
      exact absurd hma (by simp)
    rw [hz]
    simpa using hnews

/-- One `vote` call with a valid value preserves the full vote-ledger
validity for post `pid`. -/
theorem vote_step_preserves (db : DB) (pid : Nat) (ident : IdentityContext)
    (v : Int) (hv : v = -1 ∨ v = 0 ∨ v = 1) (hok : VoteLedgerOk db pid) :
    VoteLedgerOk (vote db pid ident (.int v)).2 pid := by
  obtain ⟨hrows, huser, hpersona, hcounts⟩ := hok
  have hc : ((v : Int) != -1 && v != 0 && v != 1) = false := by
    rcases hv with h | h | h <;> simp [h]
  cases hfind : db.posts.find? (fun p => p.id == pid) with
  | none =>
    have hno : vote db pid ident (.int v) = (.notFound, db) := by
      simp [vote, pyParseVote, hc, hfind]
    rw [hno]
    exact ⟨hrows, huser, hpersona, hcounts⟩
  | some post0 =>
    have hrun : (vote db pid ident (.int v)).2 =
        voteCommit2 (voteCommit1 db pid ident v) pid (oldVoteValue db pid ident) v := by
      simp [vote, pyParseVote, hc, hfind]
    rw [hrun]
    have hvotes : (voteCommit2 (voteCommit1 db pid ident v) pid
        (oldVoteValue db pid ident) v).votes =
        db.votes.filter (fun r => !(voteMatches ident pid r)) ++
          (if v != 0 then [mkVote ident pid v] else []) := rfl
    have hposts : (voteCommit2 (voteCommit1 db pid ident v) pid
        (oldVoteValue db pid ident) v).posts =
        db.posts.map (fun p => if p.id == pid then
          adjustCounters (oldVoteValue db pid ident) v p else p) := rfl
    have hnewlen : (if v != 0 then [mkVote ident pid v] else []).length ≤ 1 := by
      by_cases hv0 : v = 0 <;> simp [hv0]
    unfold VoteLedgerOk
    refine ⟨?_, ?_, ?_, ?_⟩
    · -- schema row constraints
      rw [hvotes]
      intro r hr
      rcases List.mem_append.mp hr with h1 | h2
      · exact hrows r (List.mem_of_mem_filter h1)
      · by_cases hv0 : v = 0
        · rw [hv0] at h2
          simp at h2
        · have hvne : (v != 0) = true := by simp [hv0]
          rw [hvne] at h2
          simp at h2
          subst h2
          refine ⟨?_, ?_⟩
          · rcases hv with h | h | h
            · right
              simp [mkVote, h]
            · exact absurd h hv0
            · left
              simp [mkVote, h]
          · have := exactlyOne_authorFields ident
            simpa [mkVote] using this
    · -- account-key uniqueness
      rw [hvotes]
      intro pid' uid'
      apply filter_append_le_one (voteMatches ident pid) (userKey pid' uid')
        db.votes _ (huser pid' uid')
        (le_trans (List.length_filter_le _ _) hnewlen)
      by_cases hz : (((if v != 0 then [mkVote ident pid v] else []).filter
          (userKey pid' uid')).length = 0)
      · exact Or.inl hz
      · right
        have hkey : userKey pid' uid' (mkVote ident pid v) = true := by
          by_cases hv0 : v = 0
          · rw [hv0] at hz
            simp at hz
          · have hvne : (v != 0) = true := by simp [hv0]
            by_cases hk : userKey pid' uid' (mkVote ident pid v) = true
            · exact hk
            · exfalso
              apply hz
              simp [hvne, List.filter_cons, hk]
        cases hap : ident.active_persona with
        | some pp =>
          exfalso
          simp [userKey, mkVote, authorUserField, IdentityContext.isPersona,
            hap] at hkey
        | none =>
          have hkey' : pid = pid' ∧ ident.userId = uid' := by
            simpa [userKey, mkVote, authorUserField,
              IdentityContext.isPersona, hap] using hkey
          intro a hqa
          rw [voteMatches_user ident pid hap a]
          rw [hkey'.1, hkey'.2]
          exact hqa
    · -- persona-key uniqueness
      rw [hvotes]
      intro pid' k'
      apply filter_append_le_one (voteMatches ident pid) (personaKey pid' k')
        db.votes _ (hpersona pid' k')
        (le_trans (List.length_filter_le _ _) hnewlen)
      by_cases hz : (((if v != 0 then [mkVote ident pid v] else []).filter
          (personaKey pid' k')).length = 0)
      · exact Or.inl hz
      · right
        have hkey : personaKey pid' k' (mkVote ident pid v) = true := by
          by_cases hv0 : v = 0
          · rw [hv0] at hz
            simp at hz
          · have hvne : (v != 0) = true := by simp [hv0]
            by_cases hk : personaKey pid' k' (mkVote ident pid v) = true
            · exact hk
            · exfalso
              apply hz
              simp [hvne, List.filter_cons, hk]
        cases hap : ident.active_persona with
        | none =>
          exfalso
          simp [personaKey, mkVote, authorPersonaField,
            IdentityContext.isPersona, hap] at hkey
        | some pp =>
          have hkey' : pid = pid' ∧ pp.id = k' := by
            simpa [personaKey, mkVote, authorPersonaField,
              IdentityContext.isPersona, IdentityContext.personaId, hap]
              using hkey
          intro a hqa
          rw [voteMatches_persona ident pid pp hap a]
          rw [hkey'.1, hkey'.2]
          exact hqa
    · -- counter consistency for post `pid`
      rw [hvotes, hposts]
      intro p' hp' hid
      obtain ⟨p, hp, hgp⟩ := List.mem_map.mp hp'
      by_cases hpp : (p.id == pid) = true
      · rw [if_pos hpp] at hgp
        obtain ⟨hup, hdn⟩ := hcounts p hp (by simpa using hpp)
        rw [← hgp]
        have hsplitU := length_filter_split (voteMatches ident pid) (voteUp pid)
          db.votes
        have hsplitD := length_filter_split (voteMatches ident pid) (voteDown pid)
          db.votes
        have hnup : ((if v != 0 then [mkVote ident pid v] else []).filter
              (voteUp pid)).length = (if v = 1 then 1 else 0) ∧
            ((if v != 0 then [mkVote ident pid v] else []).filter
              (voteDown pid)).length = (if v = -1 then 1 else 0) := by
          rcases hv with h | h | h <;> subst h <;>
            simp [mkVote, voteUp, voteDown]
        have hmain : (adjustCounters (oldVoteValue db pid ident) v p).upvotes =
            (((db.votes.filter (fun r => !(voteMatches ident pid r))).filter
                (voteUp pid)).length +
              ((if v != 0 then [mkVote ident pid v] else []).filter
                (voteUp pid)).length : Nat) ∧
            (adjustCounters (oldVoteValue db pid ident) v p).downvotes =
            (((db.votes.filter (fun r => !(voteMatches ident pid r))).filter
                (voteDown pid)).length +
              ((if v != 0 then [mkVote ident pid v] else []).filter
                (voteDown pid)).length : Nat) := by
          have hvchoice : (v = 0 ∧ (if v = 1 then (1:Nat) else 0) = 0 ∧
                (if v = -1 then (1:Nat) else 0) = 0) ∨
              (v = 1 ∧ (if v = 1 then (1:Nat) else 0) = 1 ∧
                (if v = -1 then (1:Nat) else 0) = 0) ∨
              (v = -1 ∧ (if v = 1 then (1:Nat) else 0) = 0 ∧
                (if v = -1 then (1:Nat) else 0) = 1) := by
            rcases hv with h | h | h <;> subst h <;> simp
          cases hfv : db.votes.find? (voteMatches ident pid) with
          | none =>
            have hfe : db.votes.filter (voteMatches ident pid) = [] :=
              List.filter_eq_nil_iff.mpr (by
                intro a ha
                simpa using List.find?_eq_none.mp hfv a ha)
            have hov : oldVoteValue db pid ident = 0 := by
              simp [oldVoteValue, hfv]
            rw [hfe] at hsplitU hsplitD
            simp only [List.filter_nil, List.length_nil, Nat.zero_add] at hsplitU hsplitD
            have := adjust_counts p 0 v 0
              ((db.votes.filter (fun r => !(voteMatches ident pid r))).filter
                (voteUp pid)).length 0
              ((db.votes.filter (fun r => !(voteMatches ident pid r))).filter
                (voteDown pid)).length
              (if v = 1 then 1 else 0) (if v = -1 then 1 else 0)
              (Or.inl ⟨rfl, rfl, rfl⟩)
              (by
                rcases hvchoice with ⟨h, h1, h2⟩ | ⟨h, h1, h2⟩ | ⟨h, h1, h2⟩
                · exact Or.inl ⟨h, h1, h2⟩
                · exact Or.inr (Or.inl ⟨h, h1, h2⟩)
                · exact Or.inr (Or.inr ⟨h, h1, h2⟩))
              (by rw [hup, hsplitU]; simp)
              (by rw [hdn, hsplitD]; simp)
            rw [hov]
            refine ⟨?_, ?_⟩
            · rw [this.1, hnup.1]
            · rw [this.2, hnup.2]
          | some r =>
            have hone := matches_le_one db pid ident huser hpersona
            have hfl : db.votes.filter (voteMatches ident pid) = [r] :=
              filter_eq_single_of_find? _ _ _ hfv hone
            have hrpid : r.post_id = pid :=
              voteMatches_post_id _ _ _ (List.find?_some hfv)
            have hrval := (hrows r (List.mem_of_find?_eq_some hfv)).1
            have hov : oldVoteValue db pid ident = r.value := by
              simp [oldVoteValue, hfv]
            rw [hfl] at hsplitU hsplitD
            have haup : ([r].filter (voteUp pid)).length =
                (if r.value = 1 then 1 else 0) := by
              rcases hrval with h | h <;> simp [voteUp, hrpid, h]
            have hadn : ([r].filter (voteDown pid)).length =
                (if r.value = -1 then 1 else 0) := by
              rcases hrval with h | h <;> simp [voteDown, hrpid, h]
            rw [haup] at hsplitU
            rw [hadn] at hsplitD
            have hochoice : (r.value = 0 ∧ (if r.value = 1 then (1:Nat) else 0) = 0 ∧
                  (if r.value = -1 then (1:Nat) else 0) = 0) ∨
                (r.value = 1 ∧ (if r.value = 1 then (1:Nat) else 0) = 1 ∧
                  (if r.value = -1 then (1:Nat) else 0) = 0) ∨
                (r.value = -1 ∧ (if r.value = 1 then (1:Nat) else 0) = 0 ∧
                  (if r.value = -1 then (1:Nat) else 0) = 1) := by
              rcases hrval with h | h <;> simp [h]
            have := adjust_counts p r.value v
              (if r.value = 1 then 1 else 0)
              ((db.votes.filter (fun r => !(voteMatches ident pid r))).filter
                (voteUp pid)).length
              (if r.value = -1 then 1 else 0)
              ((db.votes.filter (fun r => !(voteMatches ident pid r))).filter
                (voteDown pid)).length
              (if v = 1 then 1 else 0) (if v = -1 then 1 else 0)
              hochoice
              (by
                rcases hvchoice with ⟨h, h1, h2⟩ | ⟨h, h1, h2⟩ | ⟨h, h1, h2⟩
                · exact Or.inl ⟨h, h1, h2⟩
                · exact Or.inr (Or.inl ⟨h, h1, h2⟩)
                · exact Or.inr (Or.inr ⟨h, h1, h2⟩))
              (by rw [hup, hsplitU])
              (by rw [hdn, hsplitD])
            rw [hov]
            refine ⟨?_, ?_⟩
            · rw [this.1, hnup.1]
            · rw [this.2, hnup.2]
        refine ⟨?_, ?_⟩
        · rw [List.filter_append, List.length_append]
          exact_mod_cast hmain.1
        · rw [List.filter_append, List.length_append]
          exact_mod_cast hmain.2
      · rw [if_neg hpp] at hgp
        rw [← hgp] at hid
        exact absurd (by simp [hid]) hpp

/-- With every stored value `±1`, the signed sum of a post's votes equals
its up-count minus its down-count. -/
theorem voteSum_eq_counts (l : List Vote) (pid : Nat)
    (h : ∀ r ∈ l, r.value = 1 ∨ r.value = -1) :
    (l.filter (fun r => r.post_id == pid)).foldr (fun r s => r.value + s) 0 =
      ((l.filter (voteUp pid)).length : Int) -
        ((l.filter (voteDown pid)).length : Int) := by
  induction l with
  | nil => simp
  | cons a t ih =>
    have ht := ih (fun x hx => h x (List.mem_cons_of_mem a hx))
    have ha := h a (List.mem_cons_self a t)
    by_cases hpid : (a.post_id == pid) = true
    · rcases ha with h1 | h1 <;>
        simp [List.filter_cons, hpid, voteUp, voteDown, h1, ht] <;>
        push_cast <;>
        ring
    · simp [List.filter_cons, hpid, voteUp, voteDown, ht]

/-- The store after a whole sequence of `vote` calls by identity `ident`
on post `pid`, one call per listed value. -/
def runVotes (pid : Nat) (ident : IdentityContext) : DB → List Int → DB
  | db, [] => db
  | db, v :: vs => runVotes pid ident (vote db pid ident (.int v)).2 vs

/-- C3: starting from a store whose vote ledger is valid for post `pid`
(its counters equal its stored vote counts, and the schema constraints of
`models.py` hold: values `±1`, exactly one voter identity per row, at most
one row per account/persona key), any finite sequence of `vote` calls by
one identity with values in `{-1, 0, 1}` leaves at most one vote row for
the (post, identity) pair and leaves `upvotes - downvotes` equal to the
signed sum of all stored vote values for the post. -/
theorem vote_ledger_invariant (db : DB) (pid : Nat) (ident : IdentityContext)
    (vs : List Int) (hvs : ∀ v ∈ vs, v = -1 ∨ v = 0 ∨ v = 1)
    (hok : VoteLedgerOk db pid) :
    VoteLedgerOk (runVotes pid ident db vs) pid ∧
    ((runVotes pid ident db vs).votes.filter (voteMatches ident pid)).length ≤ 1 ∧
    (∀ p ∈ (runVotes pid ident db vs).posts, p.id = pid →
        p.upvotes - p.downvotes = postVoteSum (runVotes pid ident db vs) pid) := by
  have hfold : ∀ (l : List Int) (d : DB), (∀ v ∈ l, v = -1 ∨ v = 0 ∨ v = 1) →
      VoteLedgerOk d pid → VoteLedgerOk (runVotes pid ident d l) pid := by
    intro l
    induction l with
    | nil =>
      intro d _ hd
      exact hd
    | cons v t ih =>
      intro d hl hd
      exact ih _ (fun x hx => hl x (List.mem_cons_of_mem v hx))
        (vote_step_preserves d pid ident v (hl v (List.mem_cons_self v t)) hd)
  obtain ⟨hrows, huser, hpersona, hcounts⟩ := hfold vs db hvs hok
  refine ⟨⟨hrows, huser, hpersona, hcounts⟩,
    matches_le_one _ pid ident huser hpersona, ?_⟩
  intro p hp hid
  obtain ⟨hu, hd⟩ := hcounts p hp hid
  rw [hu, hd]
  exact (voteSum_eq_counts _ pid (fun r hr => (hrows r hr).1)).symm

/-- Witness for `vote_ledger_invariant`: account 1 votes `+1`, `-1`, `0`
on the fresh post 1; afterwards no vote row remains and the counter gap
equals the (empty) vote sum. -/
theorem vote_ledger_invariant_witness :
    ((runVotes 1 ⟨1, none⟩
        ⟨[⟨1, "t", "b", none, 1, 0, 0, some 1, none⟩], [], [], []⟩
        [1, -1, 0]).votes.filter (voteMatches ⟨1, none⟩ 1)).length ≤ 1 ∧
    (∀ p ∈ (runVotes 1 ⟨1, none⟩
        ⟨[⟨1, "t", "b", none, 1, 0, 0, some 1, none⟩], [], [], []⟩
        [1, -1, 0]).posts, p.id = 1 →
      p.upvotes - p.downvotes = postVoteSum (runVotes 1 ⟨1, none⟩
        ⟨[⟨1, "t", "b", none, 1, 0, 0, some 1, none⟩], [], [], []⟩
        [1, -1, 0]) 1) :=
  (vote_ledger_invariant ⟨[⟨1, "t", "b", none, 1, 0, 0, some 1, none⟩], [], [], []⟩
    1 ⟨1, none⟩ [1, -1, 0] (by decide)
    ⟨by simp, fun a b => by simp, fun a b => by simp, by decide⟩).2
